import Mathlib

/-!
# Verification of `kepler-table.js` (GruppoPotente/kepler.gl)

Shallow embedding of `src/utils/table-utils/kepler-table.js`: the
`KeplerTable` dataset model with dual-track filtering, domain computation,
point-field-pair detection and column sorting. The file translates the
source into executable Lean definitions and proves the spec's claims
about them.

Helper functions imported by `kepler-table.js` from sibling modules
(`filter-utils`, `gpu-filter-utils`, `data-utils`, `data-scale-utils`,
`constants/default-settings`) are not part of the provided source; each
such definition is marked `Modelled from the spec:` and follows the
specification's description of that collaborator.
-/

set_option maxRecDepth 10000
set_option linter.unusedVariables false

namespace KeplerTbl

/-- A cell value of a table. The JS source stores arbitrary JSON-like
cell values; the claims only need null, numbers, strings and booleans.
`null` stands for both JS `null` and `undefined`. -/
inductive Value where
  | null : Value
  | num (n : Int) : Value
  | str (s : String) : Value
  | boolean (b : Bool) : Value
deriving DecidableEq, Repr

/-- A row is an ordered sequence of raw cell values, one per field,
addressed by the field's `fieldIdx` (spec §3: Row). -/
abbrev Row := List Value

/-- Field types (`ALL_FIELD_TYPES` from `constants/default-settings`,
not under src/). Modelled from the spec: enum of real, integer, boolean,
string, date, timestamp, geojson. -/
inductive FieldType where
  | real | integer | boolean | string | date | timestamp | geojson
deriving DecidableEq, Repr

/-- Scale types (`SCALE_TYPES` from `constants/default-settings`, not
under src/). Modelled from the spec: ordinal, point, quantile, quantize,
linear, sqrt, log. Every member of the enum is a supported scale type,
so the `!SCALE_TYPES[scaleType]` guard of `getColumnLayerDomain` never
fires on these values. -/
inductive ScaleType where
  | ordinal | point | quantile | quantize | linear | sqrt | log
deriving DecidableEq, Repr

/-- One column's metadata. The constructor of `KeplerTable` builds each
field from a raw descriptor `{name, type, format}` by adding `fieldIdx`
(the ordinal position, matching the physical position in each row) and a
bound `valueAccessor` closure; here the accessor is the derived function
`Field.valueAccessor` below. -/
structure Field where
  name : String
  type : FieldType
  format : Option String
  fieldIdx : Nat
deriving DecidableEq, Repr

/-- Modelled from the spec: `maybeToDate` (`utils/data-utils`, not under
src/) is the value accessor bound per field: a pure function row → typed
value reading the cell at the field's index. The string→Date coercion it
performs for timestamp fields is not observable by any claim and is not
modelled; the accessor returns the raw cell, `null` when the row is too
short. -/
def maybeToDate (isTime : Bool) (i : Nat) (format : Option String) (row : Row) : Value :=
  let v := row.getD i Value.null
  v

/-- The value accessor bound to a field at construction time
(`maybeToDate.bind(null, f.type === timestamp, i, f.format)`). -/
def Field.valueAccessor (f : Field) (row : Row) : Value :=
  maybeToDate (f.type = FieldType.timestamp) f.fieldIdx f.format row

/-- A filter descriptor (spec §3): id, the dataset it targets, the index
of the targeted field in that dataset, the `gpu` eligibility flag, the
`fixedDomain` flag separating static-range filters from filters that
drive dynamic domain recomputation, and a value. The claims only need
numeric range filters, so the value is an inclusive `[lo, hi]` range. -/
structure Filter where
  id : String
  dataId : String
  fieldIdx : Int
  gpu : Bool
  fixedDomain : Bool
  value : Int × Int
deriving DecidableEq, Repr

/-- A visual layer. Opaque to the modelled filter semantics (layers only
matter for spatial filter types, which no claim exercises). -/
structure Layer where
  id : String
deriving DecidableEq, Repr

/-- Options accepted by `filterTable` (spec §6:
`options?: {cpuOnly?, ignoreDomain?}`). -/
structure FilterOpt where
  cpuOnly : Bool
  ignoreDomain : Bool
deriving DecidableEq, Repr

/-- Modelled from the spec: `getFilterRecord` (`utils/filter-utils`, not
under src/), the Filter Partitioner's `classify` (spec §4.3). It keeps
the filters applicable to this dataset and partitions them by
domain-relevance (`dynamicDomain`: filters without a fixed/static range,
none when domains are ignored) and by CPU evaluation (`cpu`: filters not
GPU-eligible, or all of them under the `cpuOnly` override). -/
structure FilterRecord where
  dynamicDomain : List Filter
  cpu : List Filter
deriving DecidableEq, Repr

def getFilterRecord (dataId : String) (filters : List Filter) (opt : FilterOpt) : FilterRecord :=
  let applicable := filters.filter (fun f => f.dataId == dataId)
  { dynamicDomain := if opt.ignoreDomain then [] else applicable.filter (fun f => !f.fixedDomain)
    cpu := if opt.cpuOnly then applicable else applicable.filter (fun f => !f.gpu) }

/-- Which filter groups changed since the previous application
(spec §4.3: `diff(newRecord, oldRecord) -> {dynamicDomain: bool, cpu: bool}`). -/
structure FilterChanged where
  dynamicDomain : Bool
  cpu : Bool
deriving DecidableEq, Repr

/-- The identity of a filter for the diff step: its id and value. -/
def filterKey (f : Filter) : String × Int × Int :=
  (f.id, f.value)

/-- Modelled from the spec: `diffFilters` (`utils/filter-utils`, not
under src/) performs a structural comparison between the new and the
previous classification, by filter id + value, per group; a missing
previous record compares as the empty classification. -/
def diffFilters (nw : FilterRecord) (old : Option FilterRecord) : FilterChanged :=
  let o := old.getD ⟨[], []⟩
  { dynamicDomain := nw.dynamicDomain.map filterKey != o.dynamicDomain.map filterKey
    cpu := nw.cpu.map filterKey != o.cpu.map filterKey }

/-- Modelled from the spec: `getDatasetFieldIndexForFilter`
(`utils/gpu-filter-utils`, not under src/), the field-index resolver of
spec §6: a filter descriptor resolves to its field index in the dataset
it targets and to `-1` elsewhere. -/
def getDatasetFieldIndexForFilter (dataId : String) (f : Filter) : Int :=
  if f.dataId == dataId then f.fieldIdx else -1

/-- Modelled from the spec: `getFilterFunction` (`utils/filter-utils`,
not under src/), the Filter Evaluator (spec §4.2): builds a row
predicate. Range-inclusion semantics on the targeted field's value;
`null`/non-numeric cells are excluded; a filter whose field did not
resolve is inapplicable and excludes nothing (its predicate accepts
every row). -/
def getFilterFunction (field : Option Field) (dataId : String) (f : Filter)
    (layers : List Layer) : Row → Bool :=
  match field with
  | none => fun _ => true
  | some fd => fun row =>
      match fd.valueAccessor row with
      | Value.num n => decide (f.value.1 ≤ n ∧ n ≤ f.value.2)
      | _ => false

/-- Result of the Dual-Index Filter Engine: each output index sequence
is present only when its filter group was recomputed. -/
structure FilterResult where
  filteredIndex : Option (List Nat)
  filteredIndexForDomain : Option (List Nat)

/-- Look up the predicate built for a filter id. -/
def lookupFunc (funcs : List (String × (Row → Bool))) (id : String) : Row → Bool :=
  match funcs.find? (fun p => p.1 == id) with
  | some p => p.2
  | none => fun _ => true

/-- A row passes a filter group when every predicate of the group
accepts it. -/
def passesAll (funcs : List (String × (Row → Bool))) (group : List Filter) (row : Row) : Bool :=
  group.all (fun f => lookupFunc funcs f.id row)

/-- The row indices of `allData` whose rows pass the predicate, in
ascending order. -/
def filterIndices (p : Row → Bool) (allData : List Row) : List Nat :=
  (List.range allData.length).filter (fun i => p (allData.getD i []))

/-- Modelled from the spec: `filterDataByFilterTypes`
(`utils/filter-utils`, not under src/), the Dual-Index Filter Engine
(spec §4.4): scans the rows and produces `filteredIndex` from the `cpu`
group and `filteredIndexForDomain` from the `dynamicDomain` group; a
group passed as `null` (not recomputed) yields no output sequence. -/
def filterDataByFilterTypes (dynamicDomainFilters : Option (List Filter))
    (cpuFilters : Option (List Filter)) (funcs : List (String × (Row → Bool)))
    (allData : List Row) : FilterResult :=
  { filteredIndex := cpuFilters.map (fun g => filterIndices (passesAll funcs g) allData)
    filteredIndexForDomain :=
      dynamicDomainFilters.map (fun g => filterIndices (passesAll funcs g) allData) }

/-- Modelled from the spec: `getGpuFilterProps`
(`utils/gpu-filter-utils`, not under src/): device-evaluable filter
parameters, opaque to this core beyond being stored and replaced
wholesale on each `filterTable` call; modelled as a record of its
inputs. -/
structure GpuFilterState where
  filters : List Filter
  dataId : String
  fields : List Field
deriving DecidableEq, Repr

def getGpuFilterProps (filters : List Filter) (dataId : String)
    (fields : List Field) : GpuFilterState :=
  ⟨filters, dataId, fields⟩

/-! ## String helpers: `removeSuffixAndDelimiters`

`layerName.replace(new RegExp(suffix, 'ig'), '')` removes every
(case-insensitive, non-overlapping, leftmost-first) occurrence of the
suffix; the suffixes used (`lat`, `lng`, `_lat`, …) contain no regex
metacharacters, so the pattern is the literal suffix.
`.replace(/[_,.]+/g, ' ')` collapses each maximal run of underscores,
commas and periods into a single space, and `.trim()` strips
leading/trailing whitespace. -/

/-- Does `s` start with the pattern `pat`, comparing characters
case-insensitively (the regex `i` flag)? -/
def matchesCI : List Char → List Char → Bool
  | [], _ => true
  | _ :: _, [] => false
  | p :: ps, c :: cs => (p.toLower == c.toLower) && matchesCI ps cs

/-- Scanning core of the suffix-removal: remove every case-insensitive
occurrence of `suff`, scanning left to right (JS `String.replace` with
an `ig` literal pattern and empty replacement). The `fuel` argument is
only a structural-termination device: each step consumes at least one
character when `suff` is nonempty, so a fuel of `s.length` is never
exhausted on the inputs `removeAllCI` passes in. -/
def removeAllCIGo (suff : List Char) : Nat → List Char → List Char
  | _, [] => []
  | 0, s => s
  | Nat.succ fuel, c :: rest =>
      if matchesCI suff (c :: rest) then
        removeAllCIGo suff fuel ((c :: rest).drop suff.length)
      else
        c :: removeAllCIGo suff fuel rest

/-- Remove every case-insensitive occurrence of `suff` from `s`. An
empty pattern removes nothing. -/
def removeAllCI (suff s : List Char) : List Char :=
  if suff.isEmpty then s else removeAllCIGo suff s.length s

/-- The delimiter class `[_,.]` of the normalization step. -/
def isDelim (c : Char) : Bool := c == '_' || c == ',' || c == '.'

/-- Scanning core of delimiter normalization; `fuel = s.length` is
never exhausted since each step consumes at least one character. -/
def collapseDelimsGo : Nat → List Char → List Char
  | _, [] => []
  | 0, s => s
  | Nat.succ fuel, c :: rest =>
      if isDelim c then ' ' :: collapseDelimsGo fuel (rest.dropWhile isDelim)
      else c :: collapseDelimsGo fuel rest

/-- Collapse each maximal run of delimiter characters into one space
(`.replace(/[_,.]+/g, ' ')`). -/
def collapseDelims (s : List Char) : List Char :=
  collapseDelimsGo s.length s

/-- Strip leading and trailing whitespace (JS `String.trim`). -/
def trimChars (s : List Char) : List Char :=
  ((s.dropWhile Char.isWhitespace).reverse.dropWhile Char.isWhitespace).reverse

/-- `removeSuffixAndDelimiters(layerName, suffix)` from the source:
strip every case-insensitive occurrence of the suffix, normalize
delimiter runs to single spaces, trim. -/
def removeSuffixAndDelimiters (layerName suffix : String) : String :=
  String.mk (trimChars (collapseDelims (removeAllCI suffix.data layerName.data)))

/-! ## Point-field-pair detection -/

/-- Modelled from the spec: `TRIP_POINT_FIELDS`
(`constants/default-settings`, not under src/): the fixed ordered list
of lat/lng suffix-pair conventions tested per field. -/
def TRIP_POINT_FIELDS : List (String × String) :=
  [("lat", "lng"), ("lat", "lon"), ("latitude", "longitude")]

/-- One side (lat or lng) of a detected point field pair:
`{fieldIdx, value}` where `value` is the field's original-case name. -/
structure FieldPairSide where
  fieldIdx : Nat
  value : String
deriving DecidableEq, Repr

/-- The `pair` component of an entry produced by `findPointFieldPairs`. -/
structure LatLng where
  lat : FieldPairSide
  lng : FieldPairSide
deriving DecidableEq, Repr

/-- An entry produced by `findPointFieldPairs`:
`{defaultName, pair, suffix}`. -/
structure FieldPair where
  defaultName : String
  pair : LatLng
  suffix : String × String
deriving DecidableEq, Repr

/-- Default field used for (unreachable) out-of-range list reads. -/
def defField : Field := ⟨"", FieldType.string, none, 0⟩

/-- JS `String.prototype.toLowerCase`, character by character. -/
def lowerStr (s : String) : String :=
  String.mk (s.data.map Char.toLower)

/-- JS `String.prototype.endsWith`: the pattern occurs at the end of
the string (false when the pattern is longer than the string, since the
compared slices then have different lengths). -/
def endsWithStr (s suff : String) : Bool :=
  suff.data == s.data.drop (s.data.length - suff.data.length)

/-- `fieldName.replace(new RegExp(suffixPair[0] + '$'), suffixPair[1])`:
replace the suffix at the end of the (already lowercased) name by the
partner suffix. Only applied after `fieldName.endsWith(s0)` succeeded. -/
def replaceEndSuffix (fieldName s0 s1 : String) : String :=
  String.mk (fieldName.data.take (fieldName.data.length - s0.data.length) ++ s1.data)

/-- The inner `for (const suffixPair of TRIP_POINT_FIELDS)` loop of
`findPointFieldPairs`, for one field: try each suffix pair in order; on
a suffix match look up the partner name among all (lowercased) names;
on a full match build the entry and exit early, otherwise continue with
the remaining suffix pairs. -/
def findPairForField (allNames : List String) (fields : List Field)
    (fieldName : String) (idx : Nat) : List (String × String) → Option FieldPair
  | [] => none
  | (s0, s1) :: rest =>
    if endsWithStr fieldName s0 then
      let partner := replaceEndSuffix fieldName s0 s1
      match allNames.findIdx? (fun d => d == partner) with
      | some partnerIdx =>
          some { defaultName := removeSuffixAndDelimiters fieldName s0
                 pair := { lat := ⟨idx, (fields.getD idx defField).name⟩
                           lng := ⟨partnerIdx, (fields.getD partnerIdx defField).name⟩ }
                 suffix := (s0, s1) }
      | none => findPairForField allNames fields fieldName idx rest
    else findPairForField allNames fields fieldName idx rest

/-- `findPointFieldPairs(fields)` from the source: reduce over the
lowercased field names, appending the entry of the first fully matching
suffix pair of each field, when one exists. -/
def findPointFieldPairs (fields : List Field) : List FieldPair :=
  let allNames := fields.map (fun f => lowerStr f.name)
  allNames.enum.foldl (fun carry p =>
    match findPairForField allNames fields p.2 p.1 TRIP_POINT_FIELDS with
    | some fp => carry ++ [fp]
    | none => carry) []

/-! ## Domain calculators (spec §4.1; `utils/data-scale-utils` and
`utils/data-utils`, not under src/) -/

/-- Distinct values in first-occurrence order, accumulating the values
already seen. -/
def firstOccur (seen : List Value) : List Value → List Value
  | [] => []
  | v :: rest =>
      if v ∈ seen then firstOccur seen rest
      else v :: firstOccur (v :: seen) rest

/-- Modelled from the spec: `getOrdinalDomain` — the set of distinct
accessed values in first-occurrence order (not sorted), over the data
it is handed. -/
def getOrdinalDomain (data : List Row) (accessor : Row → Value) : List Value :=
  firstOccur [] (data.map accessor)

/-- The numeric values reached through an index sequence, skipping
null/non-numeric cells. -/
def numericValues (indexes : List Nat) (accessor : Nat → Value) : List Int :=
  (indexes.map accessor).filterMap (fun v =>
    match v with
    | Value.num n => some n
    | _ => none)

/-- Modelled from the spec: `getLinearDomain` — `[min, max]` over the
accessed values, ignoring null/non-numeric; the degenerate empty case
yields a well-defined fallback domain. -/
def getLinearDomain (indexes : List Nat) (accessor : Nat → Value) : List Value :=
  let nums := numericValues indexes accessor
  match nums.min?, nums.max? with
  | some lo, some hi => [Value.num lo, Value.num hi]
  | _, _ => [Value.null, Value.null]

/-- Modelled from the spec: `getLogDomain` — like linear but excluding
non-positive values; all-non-positive yields the fallback domain. -/
def getLogDomain (indexes : List Nat) (accessor : Nat → Value) : List Value :=
  let nums := (numericValues indexes accessor).filter (fun n => 0 < n)
  match nums.min?, nums.max? with
  | some lo, some hi => [Value.num lo, Value.num hi]
  | _, _ => [Value.null, Value.null]

/-- Rank of a value's constructor, ordering values of different shapes. -/
def valueRank : Value → Nat
  | Value.null => 0
  | Value.num _ => 1
  | Value.str _ => 2
  | Value.boolean _ => 3

/-- Modelled from the spec: the generic ascending order on cell values
underlying `getSortingFunction` (`utils/data-utils`) and d3's
`ascending`: numbers numerically, strings lexicographically, values of
different shapes by constructor rank. -/
def valueLe (a b : Value) : Bool :=
  match a, b with
  | Value.num x, Value.num y => x ≤ y
  | Value.str x, Value.str y => x ≤ y
  | Value.boolean x, Value.boolean y => !x || y
  | _, _ => valueRank a ≤ valueRank b

/-- Modelled from the spec: `getSortingFunction(fieldType)` — a
type-appropriate ascending comparator (the modelled value order already
dispatches on the value's shape). -/
def getSortingFunction (t : FieldType) : Value → Value → Bool :=
  fun a b => valueLe a b

/-- Stable insertion into a sorted list of values. -/
def insertValue (le : Value → Value → Bool) (v : Value) : List Value → List Value
  | [] => [v]
  | w :: rest => if le v w then v :: w :: rest else w :: insertValue le v rest

/-- Stable insertion sort on values with a Boolean comparator. -/
def sortValues (le : Value → Value → Bool) : List Value → List Value
  | [] => []
  | v :: rest => insertValue le v (sortValues le rest)

/-- Modelled from the spec: `getQuantileDomain` — the accessed values
sorted with the supplied type-appropriate comparator. -/
def getQuantileDomain (indexes : List Nat) (accessor : Nat → Value)
    (le : Value → Value → Bool) : List Value :=
  sortValues le (indexes.map accessor)

/-! ## The table model -/

/-- The `KeplerTable` aggregate: row data, field metadata, canonical and
filtered index sequences, GPU filter parameters, the last filter
classification, and the CPU-shadow caches. `filterRecord`,
`filteredIdxCPU` and `filterRecordCPU` are not assigned by the
constructor (JS `undefined`), hence `Option`. -/
structure KeplerTable where
  id : String
  label : String
  color : Option Value
  metadata : Option Value
  allData : List Row
  allIndexes : List Nat
  filteredIndex : List Nat
  filteredIndexForDomain : List Nat
  fieldPairs : List FieldPair
  fields : List Field
  gpuFilter : GpuFilterState
  filterRecord : Option FilterRecord
  filteredIdxCPU : Option (List Nat)
  filterRecordCPU : Option FilterRecord

/-- A raw field descriptor of the construction input
(`data.fields: [{name, type, format?}]`). -/
structure RawField where
  name : String
  type : FieldType
  format : Option String
deriving DecidableEq, Repr

/-- The optional `info` construction input (`{id?, label?}`). -/
structure DatasetInfo where
  id : Option String
  label : Option String
deriving DecidableEq, Repr

/-- The `KeplerTable` constructor. `generateHashId(4)` (`utils/utils`,
not under src/) is modelled from the spec as an externally supplied
opaque id `genId`, overridden by `info.id` when present (the
`{id: generateHashId(4), label: 'new dataset', ...(info || {})}`
spread). Fields gain their ordinal `fieldIdx` (and thereby their bound
value accessor), `allIndexes` is the canonical sequence `0..N-1`, and
both filtered index sequences start as `allIndexes`. -/
def mkKeplerTable (genId : String) (info : Option DatasetInfo)
    (dataFields : List RawField) (rows : List Row)
    (color metadata : Option Value) : KeplerTable :=
  let datasetId := (info.bind DatasetInfo.id).getD genId
  let datasetLabel := (info.bind DatasetInfo.label).getD "new dataset"
  let fields := dataFields.enum.map (fun p =>
    { name := p.2.name, type := p.2.type, format := p.2.format, fieldIdx := p.1 : Field })
  let allIndexes := List.range rows.length
  { id := datasetId
    label := datasetLabel
    color := color
    metadata := metadata
    allData := rows
    allIndexes := allIndexes
    filteredIndex := allIndexes
    filteredIndexForDomain := allIndexes
    fieldPairs := findPointFieldPairs fields
    fields := fields
    gpuFilter := getGpuFilterProps [] datasetId fields
    filterRecord := none
    filteredIdxCPU := none
    filterRecordCPU := none }

/-- `getColumnField(columnName)`: exact, case-sensitive lookup by field
name; an absent name yields `none` (JS `undefined`). The `_assetField`
diagnostic only writes to the console log and has no effect on the
table or the result, so it is not modelled. -/
def KeplerTable.getColumnField (t : KeplerTable) (columnName : String) : Option Field :=
  t.fields.find? (fun fd => fd.name == columnName)

/-- `getColumnFieldIdx(columnName)`: index of the field with the given
name, `-1` when absent (JS `findIndex`). -/
def KeplerTable.getColumnFieldIdx (t : KeplerTable) (columnName : String) : Int :=
  match t.fields.findIdx? (fun fd => fd.name == columnName) with
  | some i => (i : Int)
  | none => -1

/-- `getValue(columnName, rowIdx)`: the typed cell value through the
field's accessor, or `none` (JS `null`) when the field is absent. An
out-of-range row index is modelled as an empty row (the accessor then
yields `null`). -/
def KeplerTable.getValue (t : KeplerTable) (columnName : String) (rowIdx : Nat) : Option Value :=
  match t.getColumnField columnName with
  | some field => some (field.valueAccessor (t.allData.getD rowIdx []))
  | none => none

/-- `updateColumnField(fieldIdx, newField)`:
`Object.assign([...this.fields], {[fieldIdx]: newField})` — a copy of
the field list with position `fieldIdx` replaced (in-range replacement,
which is the operation's contract). -/
def KeplerTable.updateColumnField (t : KeplerTable) (fieldIdx : Nat)
    (newField : Field) : KeplerTable :=
  { t with fields := t.fields.set fieldIdx newField }

/-- `filterTable(filters, layers, opt)`, translated statement by
statement from the source: store the new classification and GPU filter
parameters; with no filters reset both index sequences to `allIndexes`
and return; otherwise diff against the previous record, recompute only
the changed groups, and assign — note the source assigns
`filterResult.filteredIndexForDomain` (falling back to the previous
`filteredIndexForDomain`) to `filteredIndex`, and
`filterResult.filteredIndex` (falling back to the just-assigned
`filteredIndex`) to `filteredIndexForDomain`. -/
def KeplerTable.filterTable (t : KeplerTable) (filters : List Filter)
    (layers : List Layer) (opt : FilterOpt) : KeplerTable :=
  let filterRecord := getFilterRecord t.id filters opt
  let t1 := { t with filterRecord := some filterRecord
                     gpuFilter := getGpuFilterProps filters t.id t.fields }
  if filters.isEmpty then
    { t1 with filteredIndex := t1.allIndexes, filteredIndexForDomain := t1.allIndexes }
  else
    let changed := diffFilters filterRecord t.filterRecord
    let filterResult :=
      if changed.dynamicDomain || changed.cpu then
        let dynamicDomainFilters :=
          if changed.dynamicDomain then some filterRecord.dynamicDomain else none
        let cpuFilters := if changed.cpu then some filterRecord.cpu else none
        let filterFuncs := (filters.map (fun f =>
          let fieldIndex := getDatasetFieldIndexForFilter t.id f
          let field := if fieldIndex == -1 then none
                       else if 0 ≤ fieldIndex then t.fields[fieldIndex.toNat]?
                       else none
          (f.id, getFilterFunction field t.id f layers))).reverse
        filterDataByFilterTypes dynamicDomainFilters cpuFilters filterFuncs t.allData
      else ⟨none, none⟩
    let newFilteredIndex := filterResult.filteredIndexForDomain.getD t1.filteredIndexForDomain
    let newFilteredIndexForDomain := filterResult.filteredIndex.getD newFilteredIndex
    { t1 with filteredIndex := newFilteredIndex
              filteredIndexForDomain := newFilteredIndexForDomain }

/-- `filterTableCPU(filters, layers)`. The JS method mutates `this`
(only the `filteredIdxCPU`/`filterRecordCPU` caches) and returns either
`this` or the filtered shallow copy; modelled as the pair
`(updated original, returned table)`. `copyTable` — a
prototype-preserving shallow `Object.assign` — is the identity at the
value level: the copy shares the original's `allData`/`fields` and
differs only in the filter-state fields reassigned before filtering. -/
def KeplerTable.filterTableCPU (t : KeplerTable) (filters : List Filter)
    (layers : List Layer) : KeplerTable × KeplerTable :=
  let opt : FilterOpt := ⟨true, true⟩
  if filters.isEmpty then
    let t' := { t with filteredIdxCPU := some t.allIndexes
                       filterRecordCPU := some (getFilterRecord t.id filters opt) }
    (t', t')
  else if !(filters.any (fun f => f.gpu)) then
    let t' := { t with filteredIdxCPU := some t.filteredIndex
                       filterRecordCPU := some (getFilterRecord t.id filters opt) }
    (t', t')
  else
    let copied := { t with filterRecord := t.filterRecordCPU
                           filteredIndex := t.filteredIdxCPU.getD [] }
    let filtered := copied.filterTable filters layers opt
    let t' := { t with filteredIdxCPU := some filtered.filteredIndex
                       filterRecordCPU := filtered.filterRecord }
    (t', filtered)

/-- `getColumnLayerDomain(field, scaleType)`: dispatch on scale type.
Every member of the modelled `ScaleType` enum is a supported scale
type, so the `!SCALE_TYPES[scaleType]` guard (which logs and returns
null) never fires here. The ordinal and point branches compute over the
full row set `allData`; the quantile, log and linear/sqrt/quantize
branches compute over `filteredIndexForDomain`. -/
def KeplerTable.getColumnLayerDomain (t : KeplerTable) (field : Field)
    (scaleType : ScaleType) : List Value :=
  let indexValueAccessor := fun i => field.valueAccessor (t.allData.getD i [])
  let sortFunction := getSortingFunction field.type
  match scaleType with
  | ScaleType.ordinal | ScaleType.point =>
      getOrdinalDomain t.allData field.valueAccessor
  | ScaleType.quantile =>
      getQuantileDomain t.filteredIndexForDomain indexValueAccessor sortFunction
  | ScaleType.log =>
      getLogDomain t.filteredIndexForDomain indexValueAccessor
  | ScaleType.quantize | ScaleType.linear | ScaleType.sqrt =>
      getLinearDomain t.filteredIndexForDomain indexValueAccessor

/-! ## Column sorting -/

/-- Modelled from the spec: the `SORT_ORDER` enum
(`constants/default-settings`, not under src/) maps each of its keys to
itself; `SORT_ORDER[mode] || SORT_ORDER.ASCENDING` therefore resolves
an unknown mode to `ASCENDING`. -/
def sortOrderOf (mode : String) : String :=
  if mode == "ASCENDING" || mode == "DESCENDING" || mode == "UNSORT" then mode
  else "ASCENDING"

/-- Modelled from the spec: d3's `ascending` comparator, as a Boolean
order on cell values. -/
def ascendingLe (a b : Value) : Bool := valueLe a b

/-- Modelled from the spec: d3's `descending` comparator. -/
def descendingLe (a b : Value) : Bool := valueLe b a

/-- Stable insertion into a sorted index list. -/
def insertIdxLe (le : Nat → Nat → Bool) (v : Nat) : List Nat → List Nat
  | [] => [v]
  | w :: rest => if le v w then v :: w :: rest else w :: insertIdxLe le v rest

/-- Stable insertion sort of an index list with a Boolean comparator
(`allIndexes.slice().sort(...)`). -/
def sortIndicesBy (le : Nat → Nat → Bool) : List Nat → List Nat
  | [] => []
  | v :: rest => insertIdxLe le v (sortIndicesBy le rest)

/-- The dataset shape consumed by `sortDatasetByColumn`: a table
together with the sort metadata the function writes; the spread
`{...dataset, sortColumn, sortOrder}` passes every table attribute
through unchanged. `sortColumn` is the JS object `{[column]: sortBy}`
(or `{}`), `sortOrder` is the index sequence (or `null`). -/
structure Dataset where
  table : KeplerTable
  sortColumn : List (String × String)
  sortOrder : Option (List Nat)

/-- `sortDatasetByColumn(dataset, column, mode)` from the source: no
matching field returns the dataset untouched; `UNSORT` clears the sort
metadata; otherwise sort a copy of `allIndexes` by the raw cell values
of the column. -/
def sortDatasetByColumn (dataset : Dataset) (column : String) (mode : String) : Dataset :=
  match dataset.table.fields.findIdx? (fun f => f.name == column) with
  | none => dataset
  | some fieldIndex =>
    let sortBy := sortOrderOf mode
    if sortBy == "UNSORT" then
      { dataset with sortColumn := [], sortOrder := none }
    else
      let cmp := if sortBy == "ASCENDING" then ascendingLe else descendingLe
      let cell := fun (a : Nat) => (dataset.table.allData.getD a []).getD fieldIndex Value.null
      let sorted := sortIndicesBy (fun a b => cmp (cell a) (cell b)) dataset.table.allIndexes
      { dataset with sortColumn := [(column, sortBy)], sortOrder := some sorted }

/-! ## Worked examples used by witnesses and counterexamples -/

/-- The spec's point-pair example fields:
`['pickup_lat','pickup_lng','dropoff_lat','dropoff_lng','name']`. -/
def exPointFields : List Field :=
  [⟨"pickup_lat", FieldType.real, none, 0⟩,
   ⟨"pickup_lng", FieldType.real, none, 1⟩,
   ⟨"dropoff_lat", FieldType.real, none, 2⟩,
   ⟨"dropoff_lng", FieldType.real, none, 3⟩,
   ⟨"name", FieldType.string, none, 4⟩]

/-- A small concrete table: two integer columns `a`, `b` and three
rows. -/
def exTable : KeplerTable :=
  mkKeplerTable "d" none
    [⟨"a", FieldType.integer, none⟩, ⟨"b", FieldType.integer, none⟩]
    [[Value.num 1, Value.num 10], [Value.num 2, Value.num 20], [Value.num 3, Value.num 30]]
    none none

/-- A CPU-evaluated, fixed-domain range filter on column `a` of
`exTable` (accepts exactly row 0). -/
def exFilterCpu : Filter := ⟨"f1", "d", 0, false, true, (1, 1)⟩

/-- A GPU-flagged, dynamic-domain range filter on column `b` of
`exTable` (accepts exactly rows 1 and 2). -/
def exFilterGpu : Filter := ⟨"f2", "d", 1, true, false, (20, 30)⟩

/-- The filter set combining the two example filters. -/
def exFilters : List Filter := [exFilterCpu, exFilterGpu]

/-- Default (all-false) filter options. -/
def noOpt : FilterOpt := ⟨false, false⟩

/-- A dataset around `exTable` carrying a pre-existing sort state. -/
def exDataset : Dataset := ⟨exTable, [("a", "ASCENDING")], some [2, 1, 0]⟩

/-- A replacement field used by the column-update example. -/
def exNewField : Field := ⟨"c", FieldType.string, none, 0⟩

/-- Apply a sequence of `filterTable` calls in order. -/
def applyCalls (t : KeplerTable)
    (calls : List (List Filter × List Layer × FilterOpt)) : KeplerTable :=
  calls.foldl (fun acc c => acc.filterTable c.1 c.2.1 c.2.2) t

/-! ## Preservation lemmas: `filterTable` only rewrites the
filter-state fields -/

theorem filterTable_allData (t : KeplerTable) (filters : List Filter)
    (layers : List Layer) (opt : FilterOpt) :
    (t.filterTable filters layers opt).allData = t.allData := by
  cases filters <;> rfl

theorem filterTable_fields (t : KeplerTable) (filters : List Filter)
    (layers : List Layer) (opt : FilterOpt) :
    (t.filterTable filters layers opt).fields = t.fields := by
  cases filters <;> rfl

theorem filterTable_allIndexes (t : KeplerTable) (filters : List Filter)
    (layers : List Layer) (opt : FilterOpt) :
    (t.filterTable filters layers opt).allIndexes = t.allIndexes := by
  cases filters <;> rfl

theorem applyCalls_allData (t : KeplerTable)
    (calls : List (List Filter × List Layer × FilterOpt)) :
    (applyCalls t calls).allData = t.allData := by
  induction calls generalizing t with
  | nil => rfl
  | cons c rest ih =>
      show (applyCalls (t.filterTable c.1 c.2.1 c.2.2) rest).allData = t.allData
      rw [ih, filterTable_allData]

/-! ## The claims -/

/-- C1: for every table (with its canonical `allIndexes = 0..N-1`) and
every layers/options argument, `filterTable` with an empty filter list
sets both `filteredIndex` and `filteredIndexForDomain` to the canonical
ascending full row-index sequence `0..N-1` of length the row count,
returns the table (row data, fields and `allIndexes` unchanged), and
performs no row scan: the produced indices do not depend on `allData`. -/
theorem filterTable_noFilters_resets_to_allIndexes
    (t : KeplerTable) (layers : List Layer) (opt : FilterOpt)
    (h : t.allIndexes = List.range t.allData.length) :
    (t.filterTable [] layers opt).filteredIndex = List.range t.allData.length ∧
    (t.filterTable [] layers opt).filteredIndexForDomain = List.range t.allData.length ∧
    List.Sorted (· < ·) (t.filterTable [] layers opt).filteredIndex ∧
    (t.filterTable [] layers opt).filteredIndex.length = t.allData.length ∧
    (∀ rows : List Row,
      (KeplerTable.filterTable { t with allData := rows } [] layers opt).filteredIndex
        = t.allIndexes) ∧
    (t.filterTable [] layers opt).allData = t.allData ∧
    (t.filterTable [] layers opt).fields = t.fields ∧
    (t.filterTable [] layers opt).allIndexes = t.allIndexes := by
  refine ⟨h, h, ?_, ?_, fun rows => rfl, rfl, rfl, rfl⟩
  · show List.Sorted (· < ·) t.allIndexes
    rw [h]
    exact List.sorted_lt_range _
  · show t.allIndexes.length = t.allData.length
    rw [h, List.length_range]

/-- Witness for C1: the theorem applied to the concrete `exTable`. -/
theorem filterTable_noFilters_resets_to_allIndexes_witness :
    exTable.allIndexes = List.range exTable.allData.length ∧
    (exTable.filterTable [] [] noOpt).filteredIndex = List.range exTable.allData.length ∧
    (exTable.filterTable [] [] noOpt).filteredIndexForDomain
      = List.range exTable.allData.length :=
  ⟨by decide,
   (filterTable_noFilters_resets_to_allIndexes exTable [] noOpt (by decide)).1,
   (filterTable_noFilters_resets_to_allIndexes exTable [] noOpt (by decide)).2.1⟩

/-- C3: the ordinal and point layer domains of a field are computed by
`getColumnLayerDomain` over the full row set `allData`, and are
therefore invariant under any sequence of `filterTable` calls: applying
or changing filters never changes the ordinal/point layer domain. -/
theorem getColumnLayerDomain_ordinal_invariant_under_filtering
    (t : KeplerTable) (field : Field)
    (calls : List (List Filter × List Layer × FilterOpt)) :
    (t.getColumnLayerDomain field ScaleType.ordinal
        = getOrdinalDomain t.allData field.valueAccessor ∧
     t.getColumnLayerDomain field ScaleType.point
        = getOrdinalDomain t.allData field.valueAccessor) ∧
    (applyCalls t calls).getColumnLayerDomain field ScaleType.ordinal
        = t.getColumnLayerDomain field ScaleType.ordinal ∧
    (applyCalls t calls).getColumnLayerDomain field ScaleType.point
        = t.getColumnLayerDomain field ScaleType.point := by
  refine ⟨⟨rfl, rfl⟩, ?_, ?_⟩ <;>
  · show getOrdinalDomain (applyCalls t calls).allData field.valueAccessor
       = getOrdinalDomain t.allData field.valueAccessor
    rw [applyCalls_allData]

/-- C5: `removeSuffixAndDelimiters('trip.pickup_lat', '_lat')` removes
the suffix, normalizes the remaining delimiters to single spaces, trims,
and yields `'trip pickup'`. -/
theorem removeSuffixAndDelimiters_example :
    removeSuffixAndDelimiters "trip.pickup_lat" "_lat" = "trip pickup" := by
  decide

/-- C8: `updateColumnField(i, newField)` replaces exactly the field at
position `i`; every other position, the row data and every other table
attribute are unchanged. -/
theorem updateColumnField_replaces_only_target
    (t : KeplerTable) (i : Nat) (newField : Field) (h : i < t.fields.length) :
    (t.updateColumnField i newField).fields[i]? = some newField ∧
    (∀ j, j ≠ i → (t.updateColumnField i newField).fields[j]? = t.fields[j]?) ∧
    (t.updateColumnField i newField).fields.length = t.fields.length ∧
    (t.updateColumnField i newField).allData = t.allData ∧
    (t.updateColumnField i newField).id = t.id ∧
    (t.updateColumnField i newField).label = t.label ∧
    (t.updateColumnField i newField).color = t.color ∧
    (t.updateColumnField i newField).metadata = t.metadata ∧
    (t.updateColumnField i newField).allIndexes = t.allIndexes ∧
    (t.updateColumnField i newField).filteredIndex = t.filteredIndex ∧
    (t.updateColumnField i newField).filteredIndexForDomain = t.filteredIndexForDomain ∧
    (t.updateColumnField i newField).fieldPairs = t.fieldPairs ∧
    (t.updateColumnField i newField).gpuFilter = t.gpuFilter ∧
    (t.updateColumnField i newField).filterRecord = t.filterRecord ∧
    (t.updateColumnField i newField).filteredIdxCPU = t.filteredIdxCPU ∧
    (t.updateColumnField i newField).filterRecordCPU = t.filterRecordCPU := by
  refine ⟨?_, ?_, List.length_set t.fields i newField,
    rfl, rfl, rfl, rfl, rfl, rfl, rfl, rfl, rfl, rfl, rfl, rfl, rfl⟩
  · show (t.fields.set i newField)[i]? = some newField
    exact List.getElem?_set_self h
  · intro j hj
    show (t.fields.set i newField)[j]? = t.fields[j]?
    exact List.getElem?_set_ne hj.symm

/-- Witness for C8: replace field 0 of `exTable`; field 1 is
untouched. -/
theorem updateColumnField_replaces_only_target_witness :
    0 < exTable.fields.length ∧
    (exTable.updateColumnField 0 exNewField).fields[0]? = some exNewField ∧
    (exTable.updateColumnField 0 exNewField).fields[1]? = exTable.fields[1]? :=
  ⟨by decide,
   (updateColumnField_replaces_only_target exTable 0 exNewField (by decide)).1,
   (updateColumnField_replaces_only_target exTable 0 exNewField (by decide)).2.1 1 (by decide)⟩

/-- C9: a column name matching no field (case-sensitively) makes
`getColumnField` return an empty result and `getValue` return null for
every row index; both lookups are total functions of the unchanged
table (the only side effect in the source is a console diagnostic). -/
theorem getColumnField_getValue_missing_column
    (t : KeplerTable) (columnName : String)
    (h : ∀ f ∈ t.fields, f.name ≠ columnName) :
    t.getColumnField columnName = none ∧
    ∀ rowIdx, t.getValue columnName rowIdx = none := by
  have hf : t.fields.find? (fun fd => fd.name == columnName) = none := by
    rw [List.find?_eq_none]
    intro x hx
    simpa using h x hx
  refine ⟨hf, fun rowIdx => ?_⟩
  unfold KeplerTable.getValue
  rw [show t.getColumnField columnName = none from hf]

/-- Witness for C9: looking up the absent column `zzz` on `exTable`. -/
theorem getColumnField_getValue_missing_column_witness :
    (∀ f ∈ exTable.fields, f.name ≠ "zzz") ∧
    exTable.getColumnField "zzz" = none ∧
    exTable.getValue "zzz" 0 = none :=
  ⟨by decide,
   (getColumnField_getValue_missing_column exTable "zzz" (by decide)).1,
   (getColumnField_getValue_missing_column exTable "zzz" (by decide)).2 0⟩

/-- C10: `sortDatasetByColumn` with a column name matching no field
returns the input dataset itself, unchanged, for every sort mode. -/
theorem sortDatasetByColumn_unknown_column_identity
    (dataset : Dataset) (column : String) (mode : String)
    (h : ∀ f ∈ dataset.table.fields, f.name ≠ column) :
    sortDatasetByColumn dataset column mode = dataset := by
  have hf : dataset.table.fields.findIdx? (fun f => f.name == column) = none := by
    rw [List.findIdx?_eq_none_iff]
    intro x hx
    simpa using h x hx
  unfold sortDatasetByColumn
  rw [hf]

/-- Witness for C10: sorting `exDataset` by the absent column `zzz`. -/
theorem sortDatasetByColumn_unknown_column_identity_witness :
    (∀ f ∈ exDataset.table.fields, f.name ≠ "zzz") ∧
    sortDatasetByColumn exDataset "zzz" "DESCENDING" = exDataset :=
  ⟨by decide,
   sortDatasetByColumn_unknown_column_identity exDataset "zzz" "DESCENDING" (by decide)⟩

/-- C2 is refuted by the code: re-applying an identical filter set is
not a no-op. On `exTable` with `exFilters` (one CPU fixed-domain filter
accepting row 0, one GPU dynamic-domain filter accepting rows 1 and 2),
the first application yields `filteredIndex = [1, 2]` and
`filteredIndexForDomain = [0]`; the second, identical application — for
which the diff step correctly reports no change and no group is
recomputed — overwrites `filteredIndex` with the previous
`filteredIndexForDomain` through the swapped fallback assignments
`this.filteredIndex = filterResult.filteredIndexForDomain || this.filteredIndexForDomain`
and `this.filteredIndexForDomain = filterResult.filteredIndex || this.filteredIndex`,
yielding `[0]` ≠ `[1, 2]`. -/
theorem filterTable_reapply_changes_filteredIndex :
    ((exTable.filterTable exFilters [] noOpt).filteredIndex = [1, 2] ∧
     (exTable.filterTable exFilters [] noOpt).filteredIndexForDomain = [0]) ∧
    (((exTable.filterTable exFilters [] noOpt).filterTable exFilters [] noOpt).filteredIndex
        = [0] ∧
     ((exTable.filterTable exFilters [] noOpt).filterTable exFilters [] noOpt).filteredIndexForDomain
        = [0]) ∧
    ((exTable.filterTable exFilters [] noOpt).filterTable exFilters [] noOpt).filteredIndex
      ≠ (exTable.filterTable exFilters [] noOpt).filteredIndex := by
  decide

/-- C4: `findPointFieldPairs` on the spec's example fields returns
exactly the `pickup` pair (lat field 0, lng field 1) and the `dropoff`
pair (lat field 2, lng field 3), with no entry involving the field
`name`; and, for any field, once a suffix pair fully matches (suffix
matched and partner name found) the entry is produced from that pair
and the later suffix pairs of the list are never consulted — the
conclusion does not depend on `rest`. -/
theorem findPointFieldPairs_spec_example_and_early_exit :
    (findPointFieldPairs exPointFields =
      [{ defaultName := "pickup",
         pair := { lat := ⟨0, "pickup_lat"⟩, lng := ⟨1, "pickup_lng"⟩ }
         suffix := ("lat", "lng") },
       { defaultName := "dropoff",
         pair := { lat := ⟨2, "dropoff_lat"⟩, lng := ⟨3, "dropoff_lng"⟩ }
         suffix := ("lat", "lng") }]) ∧
    ∀ (allNames : List String) (fields : List Field) (fieldName : String)
      (idx : Nat) (s0 s1 : String) (rest : List (String × String)) (partnerIdx : Nat),
      endsWithStr fieldName s0 = true →
      allNames.findIdx? (fun d => d == replaceEndSuffix fieldName s0 s1) = some partnerIdx →
      findPairForField allNames fields fieldName idx ((s0, s1) :: rest)
        = some { defaultName := removeSuffixAndDelimiters fieldName s0
                 pair := { lat := ⟨idx, (fields.getD idx defField).name⟩
                           lng := ⟨partnerIdx, (fields.getD partnerIdx defField).name⟩ }
                 suffix := (s0, s1) } := by
  refine ⟨by decide, ?_⟩
  intro allNames fields fieldName idx s0 s1 rest partnerIdx h1 h2
  simp only [findPairForField, h1, if_true, h2]

/-- Witness for C4's early-exit part at the concrete field
`pickup_lat` of the example. -/
theorem findPointFieldPairs_spec_example_and_early_exit_witness :
    endsWithStr "pickup_lat" "lat" = true ∧
    (["pickup_lat", "pickup_lng", "dropoff_lat", "dropoff_lng", "name"].findIdx?
        (fun d => d == replaceEndSuffix "pickup_lat" "lat" "lng") = some 1) ∧
    findPairForField ["pickup_lat", "pickup_lng", "dropoff_lat", "dropoff_lng", "name"]
        exPointFields "pickup_lat" 0
        (("lat", "lng") :: [("lat", "lon"), ("latitude", "longitude")])
      = some { defaultName := removeSuffixAndDelimiters "pickup_lat" "lat"
               pair := { lat := ⟨0, (exPointFields.getD 0 defField).name⟩
                         lng := ⟨1, (exPointFields.getD 1 defField).name⟩ }
               suffix := ("lat", "lng") } :=
  ⟨by decide, by decide,
   (findPointFieldPairs_spec_example_and_early_exit).2
     ["pickup_lat", "pickup_lng", "dropoff_lat", "dropoff_lng", "name"]
     exPointFields "pickup_lat" 0 "lat" "lng"
     [("lat", "lon"), ("latitude", "longitude")] 1 (by decide) (by decide)⟩

/-- C6: for every dataset whose fields contain the given column and any
prior sort state, `sortDatasetByColumn` with mode `UNSORT` returns a
new dataset value whose `sortColumn` is empty and whose `sortOrder` is
null, with the underlying table untouched (the input is not mutated:
the function is pure and returns a fresh value). -/
theorem sortDatasetByColumn_unsort_clears_sort_state
    (dataset : Dataset) (column : String)
    (h : ∃ f ∈ dataset.table.fields, f.name = column) :
    (sortDatasetByColumn dataset column "UNSORT").sortColumn = [] ∧
    (sortDatasetByColumn dataset column "UNSORT").sortOrder = none ∧
    (sortDatasetByColumn dataset column "UNSORT").table = dataset.table := by
  obtain ⟨f, hf, hname⟩ := h
  cases hidx : dataset.table.fields.findIdx? (fun f => f.name == column) with
  | none =>
      rw [List.findIdx?_eq_none_iff] at hidx
      have hfalse := hidx f hf
      simp [hname] at hfalse
  | some i =>
      unfold sortDatasetByColumn
      rw [hidx]
      exact ⟨rfl, rfl, rfl⟩

/-- Witness for C6: unsorting `exDataset` (sorted by column `a`). -/
theorem sortDatasetByColumn_unsort_clears_sort_state_witness :
    (∃ f ∈ exDataset.table.fields, f.name = "a") ∧
    (sortDatasetByColumn exDataset "a" "UNSORT").sortColumn = [] ∧
    (sortDatasetByColumn exDataset "a" "UNSORT").sortOrder = none ∧
    (sortDatasetByColumn exDataset "a" "UNSORT").table = exDataset.table :=
  ⟨by decide,
   (sortDatasetByColumn_unsort_clears_sort_state exDataset "a" (by decide)).1,
   (sortDatasetByColumn_unsort_clears_sort_state exDataset "a" (by decide)).2.1,
   (sortDatasetByColumn_unsort_clears_sort_state exDataset "a" (by decide)).2.2⟩

/-- Reduction of `filterTableCPU` in the case of a non-empty filter
list containing a GPU-flagged filter: the copy-and-filter branch. -/
theorem filterTableCPU_gpu_case (t : KeplerTable) (filters : List Filter)
    (layers : List Layer)
    (hne : filters.isEmpty = false) (hany : filters.any (fun f => f.gpu) = true) :
    t.filterTableCPU filters layers =
      (let copied : KeplerTable :=
        { t with filterRecord := t.filterRecordCPU
                 filteredIndex := t.filteredIdxCPU.getD [] }
       let filtered := copied.filterTable filters layers ⟨true, true⟩
       ({ t with filteredIdxCPU := some filtered.filteredIndex
                 filterRecordCPU := filtered.filterRecord }, filtered)) := by
  unfold KeplerTable.filterTableCPU
  simp only [hne, hany, Bool.not_true, Bool.false_eq_true, if_false]

/-- C7: with a non-empty filter list containing at least one
GPU-flagged filter, `filterTableCPU` leaves the original table's
`filteredIndex` and `filteredIndexForDomain` — and every attribute
other than the `filteredIdxCPU`/`filterRecordCPU` caches — unchanged;
the caches receive the shadow result, and the returned filtered table
is built from a shallow copy sharing the original's rows and fields. -/
theorem filterTableCPU_gpu_preserves_primary_indexes
    (t : KeplerTable) (filters : List Filter) (layers : List Layer)
    (h1 : filters ≠ []) (h2 : ∃ f ∈ filters, f.gpu = true) :
    ((t.filterTableCPU filters layers).1.filteredIndex = t.filteredIndex ∧
     (t.filterTableCPU filters layers).1.filteredIndexForDomain = t.filteredIndexForDomain) ∧
    ((t.filterTableCPU filters layers).1.id = t.id ∧
     (t.filterTableCPU filters layers).1.label = t.label ∧
     (t.filterTableCPU filters layers).1.color = t.color ∧
     (t.filterTableCPU filters layers).1.metadata = t.metadata ∧
     (t.filterTableCPU filters layers).1.allData = t.allData ∧
     (t.filterTableCPU filters layers).1.allIndexes = t.allIndexes ∧
     (t.filterTableCPU filters layers).1.fieldPairs = t.fieldPairs ∧
     (t.filterTableCPU filters layers).1.fields = t.fields ∧
     (t.filterTableCPU filters layers).1.gpuFilter = t.gpuFilter ∧
     (t.filterTableCPU filters layers).1.filterRecord = t.filterRecord) ∧
    ((t.filterTableCPU filters layers).1.filteredIdxCPU
        = some (t.filterTableCPU filters layers).2.filteredIndex ∧
     (t.filterTableCPU filters layers).1.filterRecordCPU
        = (t.filterTableCPU filters layers).2.filterRecord) ∧
    ((t.filterTableCPU filters layers).2.allData = t.allData ∧
     (t.filterTableCPU filters layers).2.fields = t.fields) := by
  have hne : filters.isEmpty = false := by
    cases filters with
    | nil => exact absurd rfl h1
    | cons a l => rfl
  have hany : filters.any (fun f => f.gpu) = true := by
    obtain ⟨f, hf, hg⟩ := h2
    exact List.any_eq_true.mpr ⟨f, hf, hg⟩
  rw [filterTableCPU_gpu_case t filters layers hne hany]
  refine ⟨⟨rfl, rfl⟩, ⟨rfl, rfl, rfl, rfl, rfl, rfl, rfl, rfl, rfl, rfl⟩,
    ⟨rfl, rfl⟩, ⟨?_, ?_⟩⟩
  · exact filterTable_allData _ filters layers _
  · exact filterTable_fields _ filters layers _

/-- Witness for C7 at the concrete `exTable` with `exFilters` (whose
second filter is GPU-flagged). -/
theorem filterTableCPU_gpu_preserves_primary_indexes_witness :
    exFilters ≠ [] ∧ (∃ f ∈ exFilters, f.gpu = true) ∧
    (exTable.filterTableCPU exFilters []).1.filteredIndex = exTable.filteredIndex ∧
    (exTable.filterTableCPU exFilters []).1.filteredIndexForDomain
      = exTable.filteredIndexForDomain :=
  ⟨by decide, by decide,
   (filterTableCPU_gpu_preserves_primary_indexes exTable exFilters []
      (by decide) (by decide)).1.1,
   (filterTableCPU_gpu_preserves_primary_indexes exTable exFilters []
      (by decide) (by decide)).1.2⟩

end KeplerTbl
